import Mathlib

set_option autoImplicit false

/-!
Shallow embedding of the sfind program: the identifier-resolution cascade of
src/finder.rs, the Salesforce entity catalog, qualified-field parsing and
client operations of src/sf.rs, the application error of src/error.rs and the
configuration record of src/config.rs, together with proofs about the
embedded definitions.

Conventions used throughout the embedding:
- Rust strings are Lean `String`; Rust byte length is `String.utf8ByteSize`
  and Rust byte slicing of a string is modelled by `takeBytes`, which returns
  `none` exactly when the requested byte index is not a character boundary
  (the case in which the Rust slice panics).
- Fallible Rust functions returning `Result` become `Except`; the reachable
  panic in `Entity::from_id` is made explicit with `Except RustPanic`.
- The two operations of the `sf::Client` trait are a structure of functions,
  so that any backend behaviour (success, not-found, hard error) can be
  instantiated; the production implementation of `get_account_id_by_field`
  is modelled over an abstract query oracle.
- Functions that issue backend calls also return the list of calls they
  issued, so that claims about the number and order of backend calls are
  statable; the result component is the direct translation of the source.
-/

namespace Sfind

instance {ε α : Type} [DecidableEq ε] [DecidableEq α] : DecidableEq (Except ε α)
  | Except.error a, Except.error b =>
    if h : a = b then isTrue (by rw [h]) else isFalse (by intro hh; cases hh; exact h rfl)
  | Except.error _, Except.ok _ => isFalse (by intro h; cases h)
  | Except.ok _, Except.error _ => isFalse (by intro h; cases h)
  | Except.ok a, Except.ok b =>
    if h : a = b then isTrue (by rw [h]) else isFalse (by intro hh; cases hh; exact h rfl)

/-- Backslash character as a one-character string. -/
def bslashS : String := String.singleton (Char.ofNat 92)

/-- Double-quote character as a one-character string. -/
def dquoteS : String := String.singleton (Char.ofNat 34)

/-- Single-quote character as a one-character string. -/
def squoteS : String := String.singleton (Char.ofNat 39)

/-- Escape of a single character as in the Rust Debug rendering of a string,
covering the escape classes reachable in this program: double quote,
backslash and the common control characters; all other characters pass
through unchanged. -/
def escapeDebugChar (c : Char) : String :=
  if c = Char.ofNat 34 then bslashS ++ dquoteS
  else if c = Char.ofNat 92 then bslashS ++ bslashS
  else if c = Char.ofNat 10 then bslashS ++ "n"
  else if c = Char.ofNat 13 then bslashS ++ "r"
  else if c = Char.ofNat 9 then bslashS ++ "t"
  else String.singleton c

/-- Concatenation of the escapes of a list of characters. -/
def escapeAll : List Char → String
  | [] => ""
  | c :: cs => escapeDebugChar c ++ escapeAll cs

/-- Model of the Rust Debug format specifier applied to a string, as used by
the program in its error messages: the string is rendered between double
quotes with its characters escaped. -/
def rustDebug (s : String) : String :=
  dquoteS ++ escapeAll s.data ++ dquoteS

/-- Model of Rust `str::contains(char)`: the string contains the character. -/
def strContains (s : String) (c : Char) : Bool :=
  s.data.any (fun x => x == c)

/-- Marker for a reachable Rust panic. -/
inductive RustPanic where
  | panicked
deriving DecidableEq

/-- Model of Rust byte slicing `&s[..n]` expressed on the character list of a
string: the characters making up the first `n` bytes, or `none` when byte
index `n` is past the end or not a character boundary (the cases in which
the Rust slice panics; the out-of-range case is unreachable in this
program because slicing only happens on strings of byte length 15 or 18). -/
def takeBytes (n : Nat) (cs : List Char) : Option (List Char) :=
  if n = 0 then some []
  else
    match cs with
    | [] => none
    | c :: rest =>
      if c.utf8Size ≤ n then (takeBytes (n - c.utf8Size) rest).map (fun l => c :: l)
      else none

/-- Model of Rust `&s[..n]` as a string. -/
def byteSlice (n : Nat) (s : String) : Option String :=
  (takeBytes n s.data).map (fun cs => String.mk cs)

namespace Sf

/-- Embedding of `sf::Error` (src/sf.rs): a failure when communicating with
Salesforce. The `rustforce::Error` payload of the `SFError` variant is
modelled by its rendered message. -/
inductive Error where
  | Message (msg : String)
  | NotFound
  | SFError (err : String)
deriving DecidableEq

/-- Embedding of the Display implementation for `sf::Error`. -/
def Error.toString : Error → String
  | Error.Message msg => msg
  | Error.NotFound => "salesforce entity not found"
  | Error.SFError err => "salesforce error: " ++ err

/-- Embedding of `sf::Entity`: identifiers for Salesforce entities. -/
inductive Entity where
  | Account
  | Asset
  | Contact
  | Opportunity
  | OpportunityLineItem
deriving DecidableEq

/-- Embedding of the Display implementation for `sf::Entity`, which renders
the variant name. -/
def Entity.toString : Entity → String
  | Entity.Account => "Account"
  | Entity.Asset => "Asset"
  | Entity.Contact => "Contact"
  | Entity.Opportunity => "Opportunity"
  | Entity.OpportunityLineItem => "OpportunityLineItem"

/-- Embedding of `FromStr` for `sf::Entity`: case-sensitive exact match of
the five canonical entity names. -/
def Entity.from_str (s : String) : Except Error Entity :=
  if s = "Account" then Except.ok Entity.Account
  else if s = "Asset" then Except.ok Entity.Asset
  else if s = "Contact" then Except.ok Entity.Contact
  else if s = "Opportunity" then Except.ok Entity.Opportunity
  else if s = "OpportunityLineItem" then Except.ok Entity.OpportunityLineItem
  else Except.error (Error.Message ("invalid entity " ++ rustDebug s))

/-- Embedding of `Entity::from_id` (src/sf.rs): classify a Salesforce id by
its byte length and its first three bytes. The Rust source takes `&id[..3]`,
which panics when byte index 3 is not a character boundary; that case is the
`Except.error RustPanic.panicked` branch. -/
def Entity.from_id (id : String) : Except RustPanic (Option Entity) :=
  if id.utf8ByteSize = 15 ∨ id.utf8ByteSize = 18 then
    match byteSlice 3 id with
    | none => Except.error RustPanic.panicked
    | some p =>
      if p = "001" then Except.ok (some Entity.Account)
      else if p = "02i" then Except.ok (some Entity.Asset)
      else if p = "003" then Except.ok (some Entity.Contact)
      else if p = "006" then Except.ok (some Entity.Opportunity)
      else Except.ok none
  else Except.ok none

/-- Embedding of `sf::EntityField`: a Salesforce entity field. -/
structure EntityField where
  entity : Entity
  field : String
deriving DecidableEq

/-- Embedding of `Entity::to_field`. -/
def Entity.to_field (e : Entity) (name : String) : EntityField :=
  ⟨e, name⟩

/-- Embedding of the Display implementation for `sf::EntityField`. -/
def EntityField.toString (ef : EntityField) : String :=
  ef.entity.toString ++ "." ++ ef.field

/-- Model of Rust `s.split(sep)` for a single-character separator, expressed
on character lists: maximal runs of characters between occurrences of the
separator, including empty runs. -/
def splitChar (sep : Char) : List Char → List (List Char)
  | [] => [[]]
  | c :: cs =>
    if c = sep then [] :: splitChar sep cs
    else
      match splitChar sep cs with
      | [] => [[c]]
      | s :: ss => (c :: s) :: ss

/-- Embedding of `FromStr` for `sf::EntityField`: split on a dot, require
exactly two segments, resolve the first segment as an entity name and store
the second segment verbatim as the field name. -/
def EntityField.from_str (s : String) : Except Error EntityField :=
  match splitChar (Char.ofNat 46) s.data with
  | [p0, p1] =>
    match Entity.from_str (String.mk p0) with
    | Except.ok entity => Except.ok ⟨entity, String.mk p1⟩
    | Except.error err =>
      Except.error (Error.Message
        ("cannot parse entity field " ++ rustDebug s ++ ": " ++ err.toString))
  | _ => Except.error (Error.Message ("invalid entity field " ++ rustDebug s))

/-- Embedding of the `sf::Client` trait as a record of its two operations;
the account payload type is a parameter because the cascade treats it
opaquely. -/
structure Client (α : Type) where
  get_account : String → List EntityField → Except Error α
  get_account_id_by_field : EntityField → String → Except Error String

/-- Embedding of `sf::get_one`: the first record of a query response, or
`NotFound` on an empty response. -/
def get_one (records : List String) : Except Error String :=
  match records with
  | r :: _ => Except.ok r
  | [] => Except.error Error.NotFound

/-- Embedding of the production `get_account_id_by_field` (src/sf.rs), over
an abstract query oracle standing for `rustforce::Client::query` (each row
modelled by the value of its selected id column). In addition to the result,
the list of query texts issued to the backend is returned, so that the
`Account.Id` short-circuit (no query at all) is observable. -/
def get_account_id_by_field (query : String → Except Error (List String))
    (ef : EntityField) (value : String) : Except Error String × List String :=
  if ef.entity = Entity.Account ∧ ef.field = "Id" then
    (Except.ok value, [])
  else if ef.entity = Entity.Account then
    let q := "SELECT Id FROM " ++ ef.entity.toString ++ " WHERE " ++ ef.field ++
      " = " ++ squoteS ++ value ++ squoteS ++ " ORDER BY LastModifiedDate DESC"
    (match query q with
     | Except.ok rows => get_one rows
     | Except.error err => Except.error err, [q])
  else
    let q := "SELECT AccountId FROM " ++ ef.entity.toString ++ " WHERE " ++ ef.field ++
      " = " ++ squoteS ++ value ++ squoteS ++ " ORDER BY LastModifiedDate DESC"
    (match query q with
     | Except.ok rows => get_one rows
     | Except.error err => Except.error err, [q])

/-- Fixed base account fields of `get_account` (src/sf.rs). -/
def account_fields_base : List String :=
  ["Id", "Name", "AccountNumber", "BillingAddress", "CreatedDate", "LastModifiedDate"]

/-- Fixed base asset fields of `get_account`. -/
def asset_fields_base : List String :=
  ["Id", "Name", "Product2.ProductCode", "Product2.Name", "Product2.LastModifiedDate",
   "Price", "Quantity", "Status", "ContactId", "InstallDate", "PurchaseDate",
   "UsageEndDate", "CreatedDate", "LastModifiedDate"]

/-- Fixed base contact fields of `get_account`. -/
def contact_fields_base : List String :=
  ["Id", "Email", "FirstName", "LastName", "CreatedDate", "LastModifiedDate"]

/-- Fixed base opportunity fields of `get_account`. -/
def opportunity_fields_base : List String :=
  ["Id", "Name", "RecordType.Name", "StageName", "Amount", "CurrencyIsoCode",
   "IsWon", "IsClosed", "CloseDate", "LeadSource", "CreatedDate", "LastModifiedDate"]

/-- Fixed base opportunity line item fields of `get_account`. -/
def opportunity_line_item_fields_base : List String :=
  ["UnitPrice", "Quantity", "TotalPrice", "CurrencyISOCode", "ServiceDate"]

/-- The five per-kind selected-field lists assembled by `get_account`. -/
structure SelectedFields where
  account_fields : List String
  asset_fields : List String
  contact_fields : List String
  opportunity_fields : List String
  opportunity_line_item_fields : List String
deriving DecidableEq

/-- One iteration of the field-assembly loop of `get_account` (src/sf.rs):
the additional field is pushed onto the list of its entity kind. -/
def push_additional_field (fs : SelectedFields) (ef : EntityField) : SelectedFields :=
  match ef.entity with
  | Entity.Account => ⟨fs.account_fields ++ [ef.field], fs.asset_fields,
      fs.contact_fields, fs.opportunity_fields, fs.opportunity_line_item_fields⟩
  | Entity.Asset => ⟨fs.account_fields, fs.asset_fields ++ [ef.field],
      fs.contact_fields, fs.opportunity_fields, fs.opportunity_line_item_fields⟩
  | Entity.Contact => ⟨fs.account_fields, fs.asset_fields,
      fs.contact_fields ++ [ef.field], fs.opportunity_fields,
      fs.opportunity_line_item_fields⟩
  | Entity.Opportunity => ⟨fs.account_fields, fs.asset_fields,
      fs.contact_fields, fs.opportunity_fields ++ [ef.field],
      fs.opportunity_line_item_fields⟩
  | Entity.OpportunityLineItem => ⟨fs.account_fields, fs.asset_fields,
      fs.contact_fields, fs.opportunity_fields,
      fs.opportunity_line_item_fields ++ [ef.field]⟩

/-- Embedding of the field-assembly loop at the start of `get_account`
(src/sf.rs, lines 47-108): starting from the five fixed base lists, each
additional field is pushed onto the list of its entity kind, in order. -/
def get_account_selected_fields (additional_fields : List EntityField) : SelectedFields :=
  additional_fields.foldl push_additional_field
    ⟨account_fields_base, asset_fields_base, contact_fields_base,
     opportunity_fields_base, opportunity_line_item_fields_base⟩

end Sf

/-- Embedding of the application error `error::Error` (src/error.rs). -/
structure Error where
  message : String
deriving DecidableEq

/-- Embedding of the `From` conversion from `sf::Error` to the application
error (src/error.rs): the message is the Display rendering of the backend
error. -/
def Error.fromSf (err : Sf.Error) : Error :=
  ⟨err.toString⟩

/-- Embedding of `config::Config` (src/config.rs). -/
structure Config where
  additional_fields : List Sf.EntityField
  search_fields : List Sf.EntityField

namespace Finder

/-- Embedding of `finder::IDResult`: a result of trying to fetch an account
id. -/
inductive IDResult where
  | Ok (id : String)
  | Err (e : Error)
  | None
deriving DecidableEq

/-- Embedding of `finder::from_id` (src/finder.rs): return an account id
from the given generic Salesforce id. The second component is the list of
`get_account_id_by_field` calls issued. -/
def from_id {α : Type} (client : Sf.Client α) (id : String) :
    Except RustPanic (IDResult × List (Sf.EntityField × String)) :=
  match Sf.Entity.from_id id with
  | Except.error p => Except.error p
  | Except.ok (some entity) =>
    let ef := entity.to_field "Id"
    let r := match client.get_account_id_by_field ef id with
      | Except.ok aid => IDResult.Ok aid
      | Except.error Sf.Error.NotFound => IDResult.None
      | Except.error err => IDResult.Err (Error.fromSf err)
    Except.ok (r, [(ef, id)])
  | Except.ok none => Except.ok (IDResult.None, [])

/-- Embedding of the configured-field loop of `finder::from_extra`
(src/finder.rs): try each search field in order, with `NotFound`
falling through to the next field. -/
def from_fields {α : Type} (client : Sf.Client α) (q : String) :
    List Sf.EntityField → IDResult × List (Sf.EntityField × String)
  | [] => (IDResult.None, [])
  | ef :: rest =>
    match client.get_account_id_by_field ef q with
    | Except.ok aid => (IDResult.Ok aid, [(ef, q)])
    | Except.error Sf.Error.NotFound =>
      match from_fields client q rest with
      | (r, calls) => (r, (ef, q) :: calls)
    | Except.error err => (IDResult.Err (Error.fromSf err), [(ef, q)])

/-- Embedding of `finder::from_extra` (src/finder.rs): return an account id
from the given extra field query, checking the contact email first when the
value looks like an email. -/
def from_extra {α : Type} (client : Sf.Client α) (q : String)
    (search_fields : List Sf.EntityField) : IDResult × List (Sf.EntityField × String) :=
  if strContains q (Char.ofNat 64) then
    let ef := Sf.Entity.Contact.to_field "email"
    match client.get_account_id_by_field ef q with
    | Except.ok aid => (IDResult.Ok aid, [(ef, q)])
    | Except.error Sf.Error.NotFound =>
      match from_fields client q search_fields with
      | (r, calls) => (r, (ef, q) :: calls)
    | Except.error err => (IDResult.Err (Error.fromSf err), [(ef, q)])
  else from_fields client q search_fields

/-- The not-found application error built at the top of `finder::run`. -/
def err_not_found (q : String) : Error :=
  ⟨"nothing found for query " ++ rustDebug q⟩

/-- Embedding of the final fetch of `finder::run`: get the account by its
resolved id, mapping a backend `NotFound` to the not-found application
error. -/
def run_fetch {α : Type} (client : Sf.Client α) (id : String) (conf : Config)
    (enf : Error) : Except Error α :=
  match client.get_account id conf.additional_fields with
  | Except.ok acc => Except.ok acc
  | Except.error Sf.Error.NotFound => Except.error enf
  | Except.error err => Except.error (Error.fromSf err)

/-- Embedding of `finder::run` (src/finder.rs): find an account based on the
given query. The second component of a non-panicking outcome is the list of
`get_account_id_by_field` calls issued by the cascade. -/
def run {α : Type} (client : Sf.Client α) (q : String) (conf : Config) :
    Except RustPanic (Except Error α × List (Sf.EntityField × String)) :=
  match from_id client q with
  | Except.error p => Except.error p
  | Except.ok (r1, t1) =>
    match r1 with
    | IDResult.Ok id => Except.ok (run_fetch client id conf (err_not_found q), t1)
    | IDResult.Err err => Except.ok (Except.error err, t1)
    | IDResult.None =>
      match from_extra client q conf.search_fields with
      | (r2, t2) =>
        match r2 with
        | IDResult.Ok id => Except.ok (run_fetch client id conf (err_not_found q), t1 ++ t2)
        | IDResult.Err err => Except.ok (Except.error err, t1 ++ t2)
        | IDResult.None => Except.ok (Except.error (err_not_found q), t1 ++ t2)

/-- The result of `run` without the instrumentation trace. -/
def run_result {α : Type} (client : Sf.Client α) (q : String) (conf : Config) :
    Except RustPanic (Except Error α) :=
  (run client q conf).map Prod.fst

/-- Modelled from the spec: the ordered list of lookup strategies the
cascade tries for a query, given the id-shape classification of the query:
the id-pattern lookup when the query is id-shaped, then the contact email
lookup when the query contains an at sign, then the configured search
fields in order. -/
def strategyList (cls : Option Sf.Entity) (q : String)
    (search_fields : List Sf.EntityField) : List Sf.EntityField :=
  (match cls with
   | some entity => [entity.to_field "Id"]
   | none => []) ++
  (if strContains q (Char.ofNat 64) then [Sf.Entity.Contact.to_field "email"] else []) ++
  search_fields

/-- Modelled from the spec: first-success-wins evaluation of a strategy
list, with `NotFound` falling through to the next strategy and any other
backend error terminating immediately. -/
def firstSuccess {α : Type} (client : Sf.Client α) (q : String) :
    List Sf.EntityField → IDResult
  | [] => IDResult.None
  | ef :: rest =>
    match client.get_account_id_by_field ef q with
    | Except.ok aid => IDResult.Ok aid
    | Except.error Sf.Error.NotFound => firstSuccess client q rest
    | Except.error err => IDResult.Err (Error.fromSf err)

/-- Modelled from the spec: the prefix of a strategy list that actually
gets attempted, stopping at the first strategy whose outcome is not
`NotFound`. -/
def attempted {α : Type} (client : Sf.Client α) (q : String) :
    List Sf.EntityField → List Sf.EntityField
  | [] => []
  | ef :: rest =>
    match client.get_account_id_by_field ef q with
    | Except.ok _ => [ef]
    | Except.error Sf.Error.NotFound => ef :: attempted client q rest
    | Except.error _ => [ef]

/-- Modelled from the spec: the overall outcome of the cascade followed by
the final fetch, expressed through first-success-wins evaluation of the
strategy list: a resolved id leads to the final account fetch, a hard error
is returned as is, and exhaustion of all strategies is the not-found
outcome. -/
def cascadeOutcome {α : Type} (client : Sf.Client α) (q : String) (conf : Config)
    (cls : Option Sf.Entity) : Except Error α :=
  match firstSuccess client q (strategyList cls q conf.search_fields) with
  | IDResult.Ok id => run_fetch client id conf (err_not_found q)
  | IDResult.Err e => Except.error e
  | IDResult.None => Except.error (err_not_found q)

end Finder

/-- The five canonical entity kind names, in declaration order. -/
def kindNames : List String :=
  ["Account", "Asset", "Contact", "Opportunity", "OpportunityLineItem"]

/-- The four id-searchable 3-character id prefixes. -/
def idPrefixes : List String :=
  ["001", "02i", "003", "006"]

/-- A test client whose lookups and fetches all report `NotFound`; used to
instantiate universally quantified theorems at a concrete input. -/
def clientAllNotFound : Sf.Client String :=
  ⟨fun _ _ => Except.error Sf.Error.NotFound, fun _ _ => Except.error Sf.Error.NotFound⟩

/-- A test client whose lookups all fail with the wrapped session-error
kind and whose fetches succeed; exercises the error-conversion path. -/
def clientSfErr : Sf.Client String :=
  ⟨fun _ _ => Except.ok "acc", fun _ _ => Except.error (Sf.Error.SFError "bad wolf")⟩

/-- A test client that resolves every lookup to the looked-up value and
returns the requested id as the account payload. -/
def clientEcho : Sf.Client String :=
  ⟨fun id _ => Except.ok id, fun _ v => Except.ok v⟩

/-- The production client assembled from a query oracle and an account
oracle: `get_account_id_by_field` is the embedded production implementation
(dropping the instrumentation component), `get_account` is the account
oracle. -/
def realClient {α : Type} (query : String → Except Sf.Error (List String))
    (ga : String → List Sf.EntityField → Except Sf.Error α) : Sf.Client α :=
  ⟨ga, fun ef value => (Sf.get_account_id_by_field query ef value).1⟩

/-! ## Helper lemmas -/

theorem takeBytes_zero (cs : List Char) : takeBytes 0 cs = some [] := by
  cases cs <;> simp [takeBytes]

theorem takeBytes_ascii3 (a b c : Char) (rest : List Char)
    (ha : a.utf8Size = 1) (hb : b.utf8Size = 1) (hc : c.utf8Size = 1) :
    takeBytes 3 (a :: b :: c :: rest) = some [a, b, c] := by
  simp [takeBytes, ha, hb, hc, takeBytes_zero]

theorem string_mk_append (a b : List Char) :
    String.mk a ++ String.mk b = String.mk (a ++ b) := rfl

theorem string_data_append (s t : String) : (s ++ t).data = s.data ++ t.data := rfl

theorem string_append_assoc (a b c : String) : a ++ b ++ c = a ++ (b ++ c) := by
  show String.mk ((a.data ++ b.data) ++ c.data) = String.mk (a.data ++ (b.data ++ c.data))
  rw [List.append_assoc]

theorem escapeAll_plain (cs : List Char)
    (h : ∀ c ∈ cs, escapeDebugChar c = String.singleton c) :
    escapeAll cs = String.mk cs := by
  induction cs with
  | nil => rfl
  | cons c rest ih =>
    have hc := h c (List.mem_cons_self c rest)
    have hrest := ih (fun x hx => h x (List.mem_cons_of_mem c hx))
    show escapeDebugChar c ++ escapeAll rest = String.mk (c :: rest)
    rw [hc, hrest]
    rfl

theorem rustDebug_plain (q : String)
    (h : ∀ c ∈ q.data, escapeDebugChar c = String.singleton c) :
    rustDebug q = dquoteS ++ q ++ dquoteS := by
  show dquoteS ++ escapeAll q.data ++ dquoteS = dquoteS ++ q ++ dquoteS
  rw [escapeAll_plain q.data h]

namespace Finder

theorem from_fields_eq {α : Type} (client : Sf.Client α) (q : String)
    (l : List Sf.EntityField) :
    from_fields client q l =
      (firstSuccess client q l, (attempted client q l).map (fun ef => (ef, q))) := by
  induction l with
  | nil => simp [from_fields, firstSuccess, attempted]
  | cons ef rest ih =>
    cases h : client.get_account_id_by_field ef q with
    | ok aid => simp [from_fields, firstSuccess, attempted, h]
    | error e =>
      cases e <;> simp [from_fields, firstSuccess, attempted, h, ih]

theorem from_extra_eq {α : Type} (client : Sf.Client α) (q : String)
    (sfs : List Sf.EntityField) :
    from_extra client q sfs =
      (firstSuccess client q
        ((if strContains q (Char.ofNat 64) then [Sf.Entity.Contact.to_field "email"]
          else []) ++ sfs),
       (attempted client q
        ((if strContains q (Char.ofNat 64) then [Sf.Entity.Contact.to_field "email"]
          else []) ++ sfs)).map (fun ef => (ef, q))) := by
  cases hq : strContains q (Char.ofNat 64) with
  | false => simp [from_extra, hq, from_fields_eq]
  | true =>
    cases h : client.get_account_id_by_field (Sf.Entity.Contact.to_field "email") q with
    | ok aid => simp [from_extra, hq, firstSuccess, attempted, h]
    | error e =>
      cases e <;> simp [from_extra, hq, firstSuccess, attempted, h, from_fields_eq]

theorem run_cascade {α : Type} (client : Sf.Client α) (q : String) (conf : Config)
    (cls : Option Sf.Entity) (h : Sf.Entity.from_id q = Except.ok cls) :
    run client q conf =
      Except.ok (cascadeOutcome client q conf cls,
        (attempted client q (strategyList cls q conf.search_fields)).map
          (fun ef => (ef, q))) := by
  cases cls with
  | none =>
    simp only [run, from_id, h]
    rw [from_extra_eq]
    cases hfs : firstSuccess client q
        ((if strContains q (Char.ofNat 64) then [Sf.Entity.Contact.to_field "email"]
          else []) ++ conf.search_fields) <;>
      simp [hfs, cascadeOutcome, strategyList]
  | some entity =>
    cases hc : client.get_account_id_by_field (entity.to_field "Id") q with
    | ok aid =>
      simp [run, from_id, h, hc, cascadeOutcome, strategyList, firstSuccess, attempted]
    | error e =>
      cases e with
      | NotFound =>
        simp only [run, from_id, h, hc]
        rw [from_extra_eq]
        cases hfs : firstSuccess client q
            ((if strContains q (Char.ofNat 64) then [Sf.Entity.Contact.to_field "email"]
              else []) ++ conf.search_fields) <;>
          simp [hfs, cascadeOutcome, strategyList, firstSuccess, attempted, hc]
      | Message m =>
        simp [run, from_id, h, hc, cascadeOutcome, strategyList, firstSuccess, attempted]
      | SFError s =>
        simp [run, from_id, h, hc, cascadeOutcome, strategyList, firstSuccess, attempted]

theorem firstSuccess_err {α : Type} (client : Sf.Client α) (q : String)
    (l : List Sf.EntityField) (err : Error)
    (h : firstSuccess client q l = IDResult.Err err) :
    ∃ ef e, client.get_account_id_by_field ef q = Except.error e ∧
      err = Error.fromSf e := by
  induction l with
  | nil => simp [firstSuccess] at h
  | cons ef rest ih =>
    cases hc : client.get_account_id_by_field ef q with
    | ok aid => simp [firstSuccess, hc] at h
    | error e =>
      cases e with
      | NotFound =>
        rw [firstSuccess, hc] at h
        exact ih h
      | Message m =>
        rw [firstSuccess, hc] at h
        exact ⟨ef, Sf.Error.Message m, hc, by cases h; rfl⟩
      | SFError s =>
        rw [firstSuccess, hc] at h
        exact ⟨ef, Sf.Error.SFError s, hc, by cases h; rfl⟩

end Finder

theorem take3_eq {β : Type} (l : List β) (a b c : β) (h : l.take 3 = [a, b, c]) :
    ∃ t, l = a :: b :: c :: t := by
  match l with
  | [] => simp at h
  | [x] => simp at h
  | [x, y] => simp at h
  | x :: y :: z :: t =>
    simp [List.take] at h
    obtain ⟨h1, h2, h3⟩ := h
    exact ⟨t, by rw [h1, h2, h3]⟩

theorem Sf.splitChar_ne_nil (sep : Char) (cs : List Char) : Sf.splitChar sep cs ≠ [] := by
  cases cs with
  | nil => simp [Sf.splitChar]
  | cons c rest =>
    rw [Sf.splitChar]
    by_cases h : c = sep
    · simp [h]
    · rw [if_neg h]
      cases hs : Sf.splitChar sep rest <;> simp

theorem Sf.splitChar_mem (sep : Char) (cs : List Char) (p : List Char)
    (h : p ∈ Sf.splitChar sep cs) : sep ∉ p := by
  induction cs generalizing p with
  | nil =>
    simp [Sf.splitChar] at h
    simp [h]
  | cons c rest ih =>
    rw [Sf.splitChar] at h
    by_cases hc : c = sep
    · rw [if_pos hc] at h
      cases h with
      | head => simp
      | tail _ hmem => exact ih p hmem
    · rw [if_neg hc] at h
      cases hs : Sf.splitChar sep rest with
      | nil => exact absurd hs (Sf.splitChar_ne_nil sep rest)
      | cons s ss =>
        rw [hs] at h
        cases h with
        | head =>
          intro hmem
          cases hmem with
          | head => exact hc rfl
          | tail _ hmem2 => exact ih s (by rw [hs]; exact List.mem_cons_self s ss) hmem2
        | tail _ hmem =>
          exact ih p (by rw [hs]; exact List.mem_cons_of_mem s hmem)

theorem Sf.splitChar_no_sep (sep : Char) (cs : List Char) (h : sep ∉ cs) :
    Sf.splitChar sep cs = [cs] := by
  induction cs with
  | nil => rfl
  | cons c rest ih =>
    have hc : c ≠ sep := fun hh => h (by rw [hh]; exact List.mem_cons_self sep rest)
    rw [Sf.splitChar, if_neg hc, ih (fun hm => h (List.mem_cons_of_mem c hm))]

theorem Sf.splitChar_append (sep : Char) (a b : List Char) (h : sep ∉ a) :
    Sf.splitChar sep (a ++ sep :: b) = a :: Sf.splitChar sep b := by
  induction a with
  | nil => simp [Sf.splitChar]
  | cons c rest ih =>
    have hc : c ≠ sep := fun hh => h (by rw [hh]; exact List.mem_cons_self sep rest)
    rw [List.cons_append, Sf.splitChar, if_neg hc,
      ih (fun hm => h (List.mem_cons_of_mem c hm))]

theorem entity_from_str_toString (e : Sf.Entity) :
    Sf.Entity.from_str (Sf.Entity.toString e) = Except.ok e := by
  cases e <;> rfl

theorem entity_toString_no_dot (e : Sf.Entity) :
    Char.ofNat 46 ∉ (Sf.Entity.toString e).data := by
  cases e <;> decide

theorem entity_from_str_mem (t : String) (e : Sf.Entity)
    (h : Sf.Entity.from_str t = Except.ok e) : t ∈ kindNames := by
  unfold Sf.Entity.from_str at h
  split_ifs at h with h1 h2 h3 h4 h5 <;> simp_all [kindNames]

theorem entity_from_str_err_form (t : String) (err : Sf.Error)
    (h : Sf.Entity.from_str t = Except.error err) :
    err = Sf.Error.Message ("invalid entity " ++ rustDebug t) ∧ t ∉ kindNames := by
  unfold Sf.Entity.from_str at h
  split_ifs at h with h1 h2 h3 h4 h5
  simp_all [kindNames]

theorem entity_from_str_not_mem (t : String) (h : t ∉ kindNames) :
    Sf.Entity.from_str t =
      Except.error (Sf.Error.Message ("invalid entity " ++ rustDebug t)) := by
  simp [kindNames] at h
  obtain ⟨h1, h2, h3, h4, h5⟩ := h
  unfold Sf.Entity.from_str
  rw [if_neg h1, if_neg h2, if_neg h3, if_neg h4, if_neg h5]

theorem invalid_msgs_ne (x y : String) :
    ("invalid entity field " ++ x) ≠ ("cannot parse entity field " ++ y) := by
  intro h
  have h1 : ("invalid entity field " ++ x).data.head? = some 'i' := rfl
  rw [h] at h1
  have h2 : ("cannot parse entity field " ++ y).data.head? = some 'c' := rfl
  rw [h1] at h2
  simp at h2

theorem entityField_from_str_ok (s : String) (ef : Sf.EntityField)
    (h : Sf.EntityField.from_str s = Except.ok ef) :
    ∃ p0 p1, Sf.splitChar (Char.ofNat 46) s.data = [p0, p1] ∧
      Sf.Entity.from_str (String.mk p0) = Except.ok ef.entity ∧
      ef.field = String.mk p1 := by
  unfold Sf.EntityField.from_str at h
  cases hs : Sf.splitChar (Char.ofNat 46) s.data with
  | nil => rw [hs] at h; cases h
  | cons p0 tail =>
    cases tail with
    | nil => rw [hs] at h; cases h
    | cons p1 tail2 =>
      cases tail2 with
      | nil =>
        rw [hs] at h
        dsimp only at h
        cases hent : Sf.Entity.from_str (String.mk p0) with
        | ok e =>
          rw [hent] at h
          cases h
          exact ⟨p0, p1, rfl, hent, rfl⟩
        | error err => rw [hent] at h; cases h
      | cons p2 tail3 => rw [hs] at h; cases h

theorem selected_fields_foldl (l : List Sf.EntityField) (init : Sf.SelectedFields) :
    l.foldl Sf.push_additional_field init =
      ⟨init.account_fields ++
        (l.filter (fun ef => ef.entity == Sf.Entity.Account)).map (fun ef => ef.field),
       init.asset_fields ++
        (l.filter (fun ef => ef.entity == Sf.Entity.Asset)).map (fun ef => ef.field),
       init.contact_fields ++
        (l.filter (fun ef => ef.entity == Sf.Entity.Contact)).map (fun ef => ef.field),
       init.opportunity_fields ++
        (l.filter (fun ef => ef.entity == Sf.Entity.Opportunity)).map (fun ef => ef.field),
       init.opportunity_line_item_fields ++
        (l.filter (fun ef => ef.entity == Sf.Entity.OpportunityLineItem)).map
          (fun ef => ef.field)⟩ := by
  induction l generalizing init with
  | nil => simp
  | cons ef rest ih =>
    obtain ⟨ent, fld⟩ := ef
    rw [List.foldl_cons, ih]
    cases ent <;> simp [Sf.push_additional_field]

/-! ## Claims -/

/-- C1: for every query string on which the id-shape classification
completes (it panics on no ASCII input) and every configuration, `run`
behaves as first-success-wins evaluation of the fixed ordered strategy
list — the id-pattern lookup only if the string is id-shaped, then the
Contact-email lookup only if the string contains an at sign, then each
configured search field in configuration order — with `NotFound` falling
through to the next strategy, any other backend error terminating the
cascade immediately with that error, and the calls issued being exactly
the strategies up to the first non-`NotFound` outcome. -/
theorem claim_C1 {α : Type} (client : Sf.Client α) (q : String) (conf : Config)
    (cls : Option Sf.Entity) (h : Sf.Entity.from_id q = Except.ok cls) :
    Finder.run client q conf =
      Except.ok (Finder.cascadeOutcome client q conf cls,
        (Finder.attempted client q (Finder.strategyList cls q conf.search_fields)).map
          (fun ef => (ef, q))) :=
  Finder.run_cascade client q conf cls h

/-- Witness for C1 at a concrete non-id-shaped query and an all-`NotFound`
client. -/
theorem claim_C1_witness :
    Sf.Entity.from_id "some-query" = Except.ok none ∧
    Finder.run clientAllNotFound "some-query" ⟨[], []⟩ =
      Except.ok (Finder.cascadeOutcome clientAllNotFound "some-query" ⟨[], []⟩ none,
        (Finder.attempted clientAllNotFound "some-query"
          (Finder.strategyList none "some-query" [])).map
            (fun ef => (ef, "some-query"))) :=
  ⟨by decide, claim_C1 clientAllNotFound "some-query" ⟨[], []⟩ none (by decide)⟩

/-- C3: the id-shape classification is not total as claimed: on a string of
byte length 18 whose byte index 3 falls inside a multi-byte character, the
code panics instead of classifying the string as not id-searchable and
falling through, even though its 3-character prefix is in no entry of the
prefix table. -/
theorem claim_C3 :
    Sf.Entity.from_id "aaαaaaaaaaaaaaaaa" = Except.error RustPanic.panicked ∧
    "aaαaaaaaaaaaaaaaa".utf8ByteSize = 18 ∧
    String.mk ("aaαaaaaaaaaaaaaaa".data.take 3) ∉ idPrefixes := by
  refine ⟨rfl, rfl, ?_⟩
  decide

/-- C10: the id-shape classification is not a total function on strings: on
a string of byte length 15 whose byte index 3 is not a character boundary,
`Entity::from_id` panics rather than returning a classification. -/
theorem claim_C10 :
    Sf.Entity.from_id "aaαaaaaaaaaaaa" = Except.error RustPanic.panicked ∧
    "aaαaaaaaaaaaaa".utf8ByteSize = 15 := ⟨rfl, rfl⟩

/-- C4: looking an account id up by the qualified field `Account.Id` issues
no backend query and returns the value itself, and the short-circuit
applies to no other field: every other qualified field issues exactly one
query. -/
theorem claim_C4 (query : String → Except Sf.Error (List String)) (v : String) :
    Sf.get_account_id_by_field query ⟨Sf.Entity.Account, "Id"⟩ v = (Except.ok v, []) ∧
    ∀ ef : Sf.EntityField, ¬(ef.entity = Sf.Entity.Account ∧ ef.field = "Id") →
      ((Sf.get_account_id_by_field query ef v).2).length = 1 := by
  constructor
  · simp [Sf.get_account_id_by_field]
  · intro ef h
    rw [Sf.get_account_id_by_field, if_neg h]
    by_cases h2 : ef.entity = Sf.Entity.Account
    · simp [h2]
    · simp [h2]

/-- Witness for C4 at a concrete oracle, value and non-short-circuiting
field. -/
theorem claim_C4_witness :
    Sf.get_account_id_by_field (fun _ => Except.error Sf.Error.NotFound)
      ⟨Sf.Entity.Account, "Id"⟩ "v" = (Except.ok "v", []) ∧
    ((Sf.get_account_id_by_field (fun _ => Except.error Sf.Error.NotFound)
      ⟨Sf.Entity.Asset, "Id"⟩ "v").2).length = 1 :=
  ⟨(claim_C4 (fun _ => Except.error Sf.Error.NotFound) "v").1,
   (claim_C4 (fun _ => Except.error Sf.Error.NotFound) "v").2
     ⟨Sf.Entity.Asset, "Id"⟩ (by decide)⟩

/-- Counterexample to C5 as stated: a backend failure of the session-error
kind does not surface with its underlying message unchanged — the
conversion to the application error prefixes the rendering, so the surfaced
message differs from the underlying one. -/
theorem claim_C5_counterexample :
    Finder.run_result clientSfErr "a@b" ⟨[], []⟩ =
      Except.ok (Except.error ⟨"salesforce error: bad wolf"⟩) ∧
    ("salesforce error: bad wolf" : String) ≠ "bad wolf" := by
  refine ⟨rfl, ?_⟩
  decide

/-- C5 (amended): a backend `Message m` error surfaces as an application
error whose message is exactly `m`, the wrapped session-error kind surfaces
as its Display rendering (which prefixes a fixed tag), and every
non-`NotFound` backend error that terminates the cascade or the final
fetch is propagated as its converted application error without retry or
further rewording. -/
theorem claim_C5 :
    (∀ m, Error.fromSf (Sf.Error.Message m) = ⟨m⟩) ∧
    (∀ s, Error.fromSf (Sf.Error.SFError s) = ⟨"salesforce error: " ++ s⟩) ∧
    (∀ (α : Type) (client : Sf.Client α) (q : String) (conf : Config)
       (cls : Option Sf.Entity) (err : Error),
       Sf.Entity.from_id q = Except.ok cls →
       Finder.firstSuccess client q (Finder.strategyList cls q conf.search_fields) =
         Finder.IDResult.Err err →
       Finder.run_result client q conf = Except.ok (Except.error err)) ∧
    (∀ (α : Type) (client : Sf.Client α) (id : String) (conf : Config) (enf : Error)
       (e : Sf.Error), e ≠ Sf.Error.NotFound →
       client.get_account id conf.additional_fields = Except.error e →
       Finder.run_fetch client id conf enf = Except.error (Error.fromSf e)) := by
  refine ⟨fun m => rfl, fun s => rfl, ?_, ?_⟩
  · intro α client q conf cls err hcls hfs
    unfold Finder.run_result
    rw [Finder.run_cascade client q conf cls hcls]
    simp [Finder.cascadeOutcome, hfs, Except.map]
  · intro α client id conf enf e he hga
    cases e with
    | NotFound => exact absurd rfl he
    | Message m => simp [Finder.run_fetch, hga]
    | SFError s => simp [Finder.run_fetch, hga]

/-- Witness for C5 (amended) at concrete messages and a concrete client
whose lookups fail with the session-error kind. -/
theorem claim_C5_witness :
    Error.fromSf (Sf.Error.Message "bad wolf") = ⟨"bad wolf"⟩ ∧
    Finder.run_result clientSfErr "a@b" ⟨[], []⟩ =
      Except.ok (Except.error (Error.fromSf (Sf.Error.SFError "bad wolf"))) :=
  ⟨claim_C5.1 "bad wolf",
   claim_C5.2.2.1 String clientSfErr "a@b" ⟨[], []⟩ none
     (Error.fromSf (Sf.Error.SFError "bad wolf")) (by decide) (by decide)⟩

/-- C6: the per-kind selected-field lists assembled by `get_account` are
that kind's fixed base fields followed by exactly the additional fields of
that kind in their original configuration order, with duplicates preserved
(the filter-and-map keeps every occurrence, including fields equal to a
base field). -/
theorem claim_C6 (additional_fields : List Sf.EntityField) :
    Sf.get_account_selected_fields additional_fields =
      ⟨Sf.account_fields_base ++
        (additional_fields.filter (fun ef => ef.entity == Sf.Entity.Account)).map
          (fun ef => ef.field),
       Sf.asset_fields_base ++
        (additional_fields.filter (fun ef => ef.entity == Sf.Entity.Asset)).map
          (fun ef => ef.field),
       Sf.contact_fields_base ++
        (additional_fields.filter (fun ef => ef.entity == Sf.Entity.Contact)).map
          (fun ef => ef.field),
       Sf.opportunity_fields_base ++
        (additional_fields.filter (fun ef => ef.entity == Sf.Entity.Opportunity)).map
          (fun ef => ef.field),
       Sf.opportunity_line_item_fields_base ++
        (additional_fields.filter
          (fun ef => ef.entity == Sf.Entity.OpportunityLineItem)).map
          (fun ef => ef.field)⟩ :=
  selected_fields_foldl additional_fields
    ⟨Sf.account_fields_base, Sf.asset_fields_base, Sf.contact_fields_base,
     Sf.opportunity_fields_base, Sf.opportunity_line_item_fields_base⟩

/-- C2: for every query on which classification completes, whose characters
need no Debug escaping, and against a client whose hard errors never render
to the not-found message, the orchestrator returns the error message
`nothing found for query` followed by the query in double quotes exactly in
two cases — every applicable strategy reported `NotFound` (or none
applied), or the cascade resolved an id and the final fetch reported
`NotFound` — and the two cases produce the identical error value. -/
theorem claim_C2 {α : Type} (client : Sf.Client α) (q : String) (conf : Config)
    (cls : Option Sf.Entity)
    (hcls : Sf.Entity.from_id q = Except.ok cls)
    (hplain : ∀ c ∈ q.data, escapeDebugChar c = String.singleton c)
    (hcl : ∀ ef e, client.get_account_id_by_field ef q = Except.error e →
      Error.fromSf e ≠ Finder.err_not_found q)
    (hga : ∀ id e, client.get_account id conf.additional_fields = Except.error e →
      e ≠ Sf.Error.NotFound → Error.fromSf e ≠ Finder.err_not_found q) :
    (Finder.run_result client q conf =
        Except.ok (Except.error
          ⟨"nothing found for query " ++ dquoteS ++ q ++ dquoteS⟩)) ↔
      (Finder.firstSuccess client q (Finder.strategyList cls q conf.search_fields) =
          Finder.IDResult.None ∨
       ∃ id, Finder.firstSuccess client q (Finder.strategyList cls q conf.search_fields) =
            Finder.IDResult.Ok id ∧
          client.get_account id conf.additional_fields =
            Except.error Sf.Error.NotFound) := by
  have hmsg : Finder.err_not_found q =
      (⟨"nothing found for query " ++ dquoteS ++ q ++ dquoteS⟩ : Error) := by
    unfold Finder.err_not_found
    rw [rustDebug_plain q hplain, ← string_append_assoc, ← string_append_assoc]
  rw [← hmsg]
  have hrr : Finder.run_result client q conf =
      Except.ok (Finder.cascadeOutcome client q conf cls) := by
    unfold Finder.run_result
    rw [Finder.run_cascade client q conf cls hcls]
    rfl
  rw [hrr]
  unfold Finder.cascadeOutcome
  cases hfs : Finder.firstSuccess client q (Finder.strategyList cls q conf.search_fields) with
  | Ok id =>
    cases hacc : client.get_account id conf.additional_fields with
    | ok a => simp [Finder.run_fetch, hacc]
    | error e =>
      cases e with
      | NotFound => simp [Finder.run_fetch, hacc]
      | Message m =>
        have hne := hga id (Sf.Error.Message m) hacc (by simp)
        simp [Finder.run_fetch, hacc, hne]
      | SFError s =>
        have hne := hga id (Sf.Error.SFError s) hacc (by simp)
        simp [Finder.run_fetch, hacc, hne]
  | Err err =>
    obtain ⟨ef, e, hcall, herr⟩ := Finder.firstSuccess_err client q _ err hfs
    have hne := hcl ef e hcall
    simp [herr, hne]
  | None => simp

/-- Witness for C2 at a concrete query and an all-`NotFound` client. -/
theorem claim_C2_witness :
    (Finder.run_result clientAllNotFound "some-query" ⟨[], []⟩ =
        Except.ok (Except.error
          ⟨"nothing found for query " ++ dquoteS ++ "some-query" ++ dquoteS⟩)) ↔
      (Finder.firstSuccess clientAllNotFound "some-query"
          (Finder.strategyList none "some-query" []) = Finder.IDResult.None ∨
       ∃ id, Finder.firstSuccess clientAllNotFound "some-query"
            (Finder.strategyList none "some-query" []) = Finder.IDResult.Ok id ∧
          clientAllNotFound.get_account id [] = Except.error Sf.Error.NotFound) :=
  claim_C2 clientAllNotFound "some-query" ⟨[], []⟩ none (by decide) (by decide)
    (fun ef e h => by
      simp only [clientAllNotFound] at h
      injection h with h2
      subst h2
      decide)
    (fun id e h hne => by
      simp only [clientAllNotFound] at h
      injection h with h2
      exact absurd h2.symm hne)

/-- C7: qualified-field parsing round-trips through rendering — whenever a
string parses to a qualified field, re-parsing the rendered form of that
field gives the same parse result as the original string. -/
theorem claim_C7 (s : String) (ef : Sf.EntityField)
    (h : Sf.EntityField.from_str s = Except.ok ef) :
    Sf.EntityField.from_str (Sf.EntityField.toString ef) =
      Sf.EntityField.from_str s := by
  obtain ⟨p0, p1, hs, hent, hfield⟩ := entityField_from_str_ok s ef h
  have hno0 : Char.ofNat 46 ∉ (Sf.Entity.toString ef.entity).data :=
    entity_toString_no_dot ef.entity
  have hp1mem : p1 ∈ Sf.splitChar (Char.ofNat 46) s.data := by
    rw [hs]
    exact List.mem_cons_of_mem p0 (List.mem_cons_self p1 [])
  have hno1 : Char.ofNat 46 ∉ p1 := Sf.splitChar_mem (Char.ofNat 46) s.data p1 hp1mem
  have hdata : (Sf.EntityField.toString ef).data =
      (Sf.Entity.toString ef.entity).data ++ Char.ofNat 46 :: p1 := by
    show (ef.entity.toString ++ "." ++ ef.field).data = _
    rw [hfield, string_data_append, string_data_append,
      show ("." : String).data = [Char.ofNat 46] from by decide, List.append_assoc]
    rfl
  have hsplit : Sf.splitChar (Char.ofNat 46) (Sf.EntityField.toString ef).data =
      [(Sf.Entity.toString ef.entity).data, p1] := by
    rw [hdata, Sf.splitChar_append _ _ _ hno0, Sf.splitChar_no_sep _ _ hno1]
  rw [h]
  unfold Sf.EntityField.from_str
  rw [hsplit]
  dsimp only
  rw [show String.mk (Sf.Entity.toString ef.entity).data = Sf.Entity.toString ef.entity
      from rfl,
    entity_from_str_toString ef.entity]
  dsimp only
  rw [← hfield]

/-- Witness for C7 at a concrete qualified-field string. -/
theorem claim_C7_witness :
    Sf.EntityField.from_str "Account.Id" = Except.ok ⟨Sf.Entity.Account, "Id"⟩ ∧
    Sf.EntityField.from_str (Sf.EntityField.toString ⟨Sf.Entity.Account, "Id"⟩) =
      Sf.EntityField.from_str "Account.Id" :=
  ⟨rfl, claim_C7 "Account.Id" ⟨Sf.Entity.Account, "Id"⟩ rfl⟩

/-- C8: qualified-field parsing fails identifying the whole string as an
invalid field spec exactly when splitting on a dot does not yield two
segments; with two segments it fails identifying the first segment as an
invalid entity exactly when that segment is not a case-sensitive canonical
kind name; and otherwise it succeeds with the second segment stored
verbatim as the field name. -/
theorem claim_C8 (s : String) :
    ((Sf.EntityField.from_str s =
        Except.error (Sf.Error.Message ("invalid entity field " ++ rustDebug s))) ↔
      (Sf.splitChar (Char.ofNat 46) s.data).length ≠ 2) ∧
    (∀ p0 p1, Sf.splitChar (Char.ofNat 46) s.data = [p0, p1] →
      ((Sf.EntityField.from_str s =
          Except.error (Sf.Error.Message ("cannot parse entity field " ++ rustDebug s ++
            ": " ++ ("invalid entity " ++ rustDebug (String.mk p0))))) ↔
        String.mk p0 ∉ kindNames) ∧
      (∀ e, Sf.Entity.from_str (String.mk p0) = Except.ok e →
        Sf.EntityField.from_str s = Except.ok ⟨e, String.mk p1⟩)) := by
  cases hs : Sf.splitChar (Char.ofNat 46) s.data with
  | nil =>
    have hv : Sf.EntityField.from_str s =
        Except.error (Sf.Error.Message ("invalid entity field " ++ rustDebug s)) := by
      unfold Sf.EntityField.from_str
      rw [hs]
    refine ⟨⟨fun _ => by simp, fun _ => hv⟩, ?_⟩
    intro p0 p1 habs
    exact absurd habs (by simp)
  | cons p0 tail =>
    cases tail with
    | nil =>
      have hv : Sf.EntityField.from_str s =
          Except.error (Sf.Error.Message ("invalid entity field " ++ rustDebug s)) := by
        unfold Sf.EntityField.from_str
        rw [hs]
      refine ⟨⟨fun _ => by simp, fun _ => hv⟩, ?_⟩
      intro p0' p1' habs
      exact absurd habs (by simp)
    | cons p1 tail2 =>
      cases tail2 with
      | nil =>
        cases hent : Sf.Entity.from_str (String.mk p0) with
        | ok e =>
          have hv : Sf.EntityField.from_str s = Except.ok ⟨e, String.mk p1⟩ := by
            unfold Sf.EntityField.from_str
            rw [hs]
            dsimp only
            rw [hent]
          have hmem : String.mk p0 ∈ kindNames := entity_from_str_mem _ e hent
          refine ⟨⟨fun hcontra => ?_, fun hcontra => ?_⟩, ?_⟩
          · rw [hv] at hcontra
            cases hcontra
          · simp at hcontra
          · intro p0' p1' heq
            injection heq with ha hb
            injection hb with hb hc
            subst ha
            subst hb
            refine ⟨⟨fun hcontra => ?_, fun hnotmem => absurd hmem hnotmem⟩, ?_⟩
            · rw [hv] at hcontra
              cases hcontra
            · intro e' hent'
              rw [hent] at hent'
              injection hent' with he
              subst he
              exact hv
        | error err =>
          obtain ⟨herr, hnotmem⟩ := entity_from_str_err_form _ err hent
          have hv : Sf.EntityField.from_str s =
              Except.error (Sf.Error.Message ("cannot parse entity field " ++
                rustDebug s ++ ": " ++ ("invalid entity " ++
                rustDebug (String.mk p0)))) := by
            unfold Sf.EntityField.from_str
            rw [hs]
            dsimp only
            rw [hent, herr]
            rfl
          refine ⟨⟨fun hcontra => ?_, fun hcontra => ?_⟩, ?_⟩
          · rw [hv] at hcontra
            injection hcontra with h1
            injection h1 with h2
            exact (invalid_msgs_ne _ _ h2.symm).elim
          · simp at hcontra
          · intro p0' p1' heq
            injection heq with ha hb
            injection hb with hb hc
            subst ha
            subst hb
            refine ⟨⟨fun _ => hnotmem, fun _ => hv⟩, ?_⟩
            intro e' hent'
            rw [hent] at hent'
            cases hent'
      | cons p2 tail3 =>
        have hv : Sf.EntityField.from_str s =
            Except.error (Sf.Error.Message ("invalid entity field " ++ rustDebug s)) := by
          unfold Sf.EntityField.from_str
          rw [hs]
        refine ⟨⟨fun _ => by simp, fun _ => hv⟩, ?_⟩
        intro p0' p1' habs
        have := congrArg List.length habs
        simp at this

/-- Witness for C8 at the concrete string that parses the kind segment
unsuccessfully. -/
theorem claim_C8_witness :
    Sf.EntityField.from_str "Badwolf.Id" =
      Except.error (Sf.Error.Message ("cannot parse entity field " ++
        rustDebug "Badwolf.Id" ++ ": " ++ ("invalid entity " ++ rustDebug "Badwolf"))) :=
  (((claim_C8 "Badwolf.Id").2 "Badwolf".data "Id".data (by decide)).1).mpr (by decide)

/-- C9: for every query of byte length 15 or 18 whose first three
characters are the Primary prefix, the cascade resolves the id to the query
itself through the `Account.Id` short-circuit, issuing no backend query and
making exactly one (queryless) lookup call; the email and configured-field
phases are unreachable whatever the configuration and oracles; and
nonexistence of the account surfaces only through the final fetch as the
not-found outcome. -/
theorem claim_C9 (α : Type) (query : String → Except Sf.Error (List String))
    (ga : String → List Sf.EntityField → Except Sf.Error α) (q : String) (conf : Config)
    (hlen : q.utf8ByteSize = 15 ∨ q.utf8ByteSize = 18)
    (hpre : q.data.take 3 = ['0', '0', '1']) :
    Finder.run (realClient query ga) q conf =
      Except.ok (Finder.run_fetch (realClient query ga) q conf (Finder.err_not_found q),
        [(⟨Sf.Entity.Account, "Id"⟩, q)]) ∧
    Sf.get_account_id_by_field query ⟨Sf.Entity.Account, "Id"⟩ q = (Except.ok q, []) ∧
    (ga q conf.additional_fields = Except.error Sf.Error.NotFound →
      Finder.run_result (realClient query ga) q conf =
        Except.ok (Except.error (Finder.err_not_found q))) := by
  obtain ⟨t, ht⟩ := take3_eq q.data '0' '0' '1' hpre
  have hfid : Sf.Entity.from_id q = Except.ok (some Sf.Entity.Account) := by
    unfold Sf.Entity.from_id byteSlice
    rw [if_pos hlen, ht, takeBytes_ascii3 '0' '0' '1' t rfl rfl rfl]
    rfl
  have hcall : (realClient query ga).get_account_id_by_field
      ⟨Sf.Entity.Account, "Id"⟩ q = Except.ok q := rfl
  have hrun : Finder.run (realClient query ga) q conf =
      Except.ok (Finder.run_fetch (realClient query ga) q conf (Finder.err_not_found q),
        [(⟨Sf.Entity.Account, "Id"⟩, q)]) := by
    rw [Finder.run_cascade (realClient query ga) q conf (some Sf.Entity.Account) hfid]
    simp [Finder.cascadeOutcome, Finder.strategyList, Finder.firstSuccess,
      Finder.attempted, Sf.Entity.to_field, hcall]
  refine ⟨hrun, rfl, ?_⟩
  intro hga
  unfold Finder.run_result
  rw [hrun]
  simp [Except.map, Finder.run_fetch, realClient, hga]

/-- Witness for C9 at a concrete Primary-shaped query, oracle and
configuration. -/
theorem claim_C9_witness :
    Finder.run (realClient (fun _ => Except.error Sf.Error.NotFound)
        (fun _ _ => (Except.error Sf.Error.NotFound : Except Sf.Error String)))
        "001aaaaaaaaaaaa" ⟨[], []⟩ =
      Except.ok (Finder.run_fetch (realClient (fun _ => Except.error Sf.Error.NotFound)
          (fun _ _ => (Except.error Sf.Error.NotFound : Except Sf.Error String)))
          "001aaaaaaaaaaaa" ⟨[], []⟩ (Finder.err_not_found "001aaaaaaaaaaaa"),
        [(⟨Sf.Entity.Account, "Id"⟩, "001aaaaaaaaaaaa")]) ∧
    Sf.get_account_id_by_field (fun _ => Except.error Sf.Error.NotFound)
      ⟨Sf.Entity.Account, "Id"⟩ "001aaaaaaaaaaaa" = (Except.ok "001aaaaaaaaaaaa", []) ∧
    Finder.run_result (realClient (fun _ => Except.error Sf.Error.NotFound)
        (fun _ _ => (Except.error Sf.Error.NotFound : Except Sf.Error String)))
        "001aaaaaaaaaaaa" ⟨[], []⟩ =
      Except.ok (Except.error (Finder.err_not_found "001aaaaaaaaaaaa")) := by
  obtain ⟨h1, h2, h3⟩ := claim_C9 String (fun _ => Except.error Sf.Error.NotFound)
    (fun _ _ => (Except.error Sf.Error.NotFound : Except Sf.Error String))
    "001aaaaaaaaaaaa" ⟨[], []⟩ (Or.inl (by decide)) (by decide)
  exact ⟨h1, h2, h3 rfl⟩

end Sfind
